import Mathlib

/-!
Verification of the socket-connection subsystem (`core/src/socket.rs`).

The Rust source is shallowly embedded: byte buffers are `List Nat`, the
generational arena is a list of slots plus a generation counter, channels
are explicit lists, and every operation returns the mutated state together
with the ordered list of script-visible dispatches it performed.
-/

namespace SocketCore

/-- A generation-tagged arena index (`generational_arena::Index`, the
`SocketHandle` of the source). -/
structure Index where
  idx : Nat
  gen : Nat
deriving DecidableEq, Repr

/-- One arena slot: free, or occupied by a value tagged with the generation
current at insertion time. -/
inductive Entry (α : Type) where
  | free : Entry α
  | occupied (gen : Nat) (value : α) : Entry α
deriving DecidableEq, Repr

/-- Modelled from the spec: the handle registry is backed by the external
`generational_arena` crate (not part of this repository's sources). The spec
describes it as an indexed store addressed by "an opaque, generation-tagged
index into the registry", where a handle is "never reused while live; once
invalidated (removed), future lookups with the old value fail cleanly (never
alias a new entry)" and "handle reuse requires a fresh generation tag".
We model it as a list of slots plus a monotone generation counter: `insert`
occupies a free slot (or appends) tagging it with the current generation,
`remove` frees the slot and bumps the generation, and lookups succeed only
when the slot's tag matches the index's tag. -/
structure Arena (α : Type) where
  items : List (Entry α)
  generation : Nat
deriving DecidableEq, Repr

/-- Total slot lookup: out-of-range slots read as free. -/
def slotAt {α : Type} : List (Entry α) → Nat → Entry α
  | [], _ => .free
  | e :: _, 0 => e
  | _ :: rest, i + 1 => slotAt rest i

namespace Arena

def empty (α : Type) : Arena α := ⟨[], 0⟩

/-- Index of the first free slot, if any. -/
def findFreeSlot : List (Entry α) → Option Nat
  | [] => none
  | .free :: _ => some 0
  | .occupied _ _ :: rest =>
      match findFreeSlot rest with
      | some j => some (j + 1)
      | none => none

def insert (a : Arena α) (v : α) : Index × Arena α :=
  match findFreeSlot a.items with
  | some i =>
      (⟨i, a.generation⟩,
        { a with items := a.items.set i (.occupied a.generation v) })
  | none =>
      (⟨a.items.length, a.generation⟩,
        { a with items := a.items ++ [.occupied a.generation v] })

def get (a : Arena α) (i : Index) : Option α :=
  match slotAt a.items i.idx with
  | .occupied g v => if g = i.gen then some v else none
  | .free => none

def remove (a : Arena α) (i : Index) : Option α × Arena α :=
  match slotAt a.items i.idx with
  | .occupied g v =>
      if g = i.gen then
        (some v, { items := a.items.set i.idx .free, generation := a.generation + 1 })
      else (none, a)
  | .free => (none, a)

/-- In-place update of the value associated to a live index
(`get_mut` in the source). -/
def modify (a : Arena α) (i : Index) (f : α → α) : Arena α :=
  match slotAt a.items i.idx with
  | .occupied g v =>
      if g = i.gen then { a with items := a.items.set i.idx (.occupied g (f v)) }
      else a
  | .free => a

/-- Well-formedness: every occupied slot's tag is bounded by the arena's
generation counter (true of every arena reachable from `empty`). -/
def WFb (a : Arena α) : Bool :=
  a.items.all fun e =>
    match e with
    | .free => true
    | .occupied g _ => g ≤ a.generation

def WF (a : Arena α) : Prop := a.WFb = true

/-- A handle that has been invalidated: no live entry matches it and its
generation tag is strictly below the arena's counter, so no later insertion
can ever reissue it. -/
def Dead {α : Type} (a : Arena α) (h : Index) : Prop :=
  a.get h = none ∧ h.gen < a.generation

/-- An arbitrary later operation on the registry, for stating that dead
handles stay dead. -/
inductive Op (α : Type) where
  | insert (v : α)
  | remove (i : Index)
  | modify (i : Index) (f : α → α)

def applyOp {α : Type} (a : Arena α) : Op α → Arena α
  | .insert v => (a.insert v).2
  | .remove i => (a.remove i).2
  | .modify i f => a.modify i f

def applyOps {α : Type} (a : Arena α) (ops : List (Op α)) : Arena α :=
  ops.foldl applyOp a

end Arena

/-- An AVM2 (`Modern`) socket target: the script-visible object state this
core touches (`SocketObject`: timeout, handle slot, read and write buffer). -/
structure ModernTarget where
  timeout : Nat
  handle : Option Index
  readBuffer : List Nat
  writeBuffer : List Nat
deriving DecidableEq, Repr

instance : Inhabited ModernTarget := ⟨⟨0, none, [], []⟩⟩

/-- An AVM1 (`Legacy`) socket target. `isXmlSocket` records whether
`XmlSocket::cast` succeeds on the underlying object (checked by
`connect_avm1`, which silently rejects other objects). -/
structure LegacyTarget where
  isXmlSocket : Bool
  timeout : Nat
  handle : Option Index
  readBuffer : List Nat
deriving DecidableEq, Repr

instance : Inhabited LegacyTarget := ⟨⟨true, 0, none, []⟩⟩

/-- `SocketKind`: which engine's target a registry entry points at, by
target id into the corresponding store. -/
inductive SocketKind where
  | avm2 (tid : Nat)
  | avm1 (tid : Nat)
deriving DecidableEq, Repr

/-- A registry entry (`Socket` in the source): the target reference plus the
connection's outbound channel, modelled by its queued contents. -/
structure Socket where
  target : SocketKind
  outbound : List (List Nat)
deriving DecidableEq, Repr

/-- `ConnectionState`. -/
inductive ConnectionState where
  | connected
  | failed
  | timedOut
deriving DecidableEq, Repr

/-- `SocketAction`: the inbound backend-to-core action values. -/
inductive SocketAction where
  | connect (h : Index) (st : ConnectionState)
  | data (h : Index) (bytes : List Nat)
  | close (h : Index)
deriving DecidableEq, Repr

/-- The handle an action addresses. -/
def SocketAction.handleOf : SocketAction → Index
  | .connect h _ => h
  | .data h _ => h
  | .close h => h

/-- The state of the subsystem: the registry (`Sockets.sockets`), the
inbound action channel contents (`receiver`/`sender` pair), and the two
script-object stores the registry entries reference. -/
structure SocketsState where
  sockets : Arena Socket
  queue : List SocketAction
  modern : Nat → ModernTarget
  legacy : Nat → LegacyTarget

/-- A script-visible dispatch performed by the core. -/
inductive Event where
  | connectEvent (tid : Nat)
  | ioErrorEvent (tid : Nat) (text : String) (code : Nat)
  | progressEvent (tid : Nat) (bytesLoaded : Nat) (bytesTotal : Nat)
  | closeEvent (tid : Nat)
  | onConnect (tid : Nat) (success : Bool)
  | onData (tid : Nat) (message : List Nat)
  | onClose (tid : Nat)
deriving DecidableEq, Repr

/-- One step of a connect request, in the order the source performs them:
the fire-and-forget backend call, the target's handle-slot update, and the
close of a displaced previous handle. -/
inductive ConnectStep where
  | backendCall (host : String) (port : Nat) (timeoutMs : Nat) (h : Index)
  | setHandle (tid : Nat) (newHandle : Index) (oldHandle : Option Index)
  | closeCall (h : Index)
deriving DecidableEq, Repr

namespace Sockets

/-- `Sockets::is_connected`: registry membership only. -/
def is_connected (s : SocketsState) (h : Index) : Bool :=
  (s.sockets.get h).isSome

/-- `Sockets::send`: if the handle is present, enqueue the bytes on the
entry's outbound channel; otherwise do nothing (the source discards the
`send_blocking` result and surfaces no error). -/
def send (s : SocketsState) (h : Index) (data : List Nat) : SocketsState :=
  { s with sockets :=
      s.sockets.modify h fun sock => { sock with outbound := sock.outbound ++ [data] } }

/-- `Sockets::close`: remove the entry if present, drop its outbound sender,
and clear the owning target's buffers (read for AVM1; read and write for
AVM2). The source dispatches no callback or event here, hence the empty
event list. -/
def close (s : SocketsState) (h : Index) : SocketsState × List Event :=
  match s.sockets.remove h with
  | (some sock, arena) =>
      let s1 := { s with sockets := arena }
      match sock.target with
      | .avm1 tid =>
          let cleared := { s1.legacy tid with readBuffer := ([] : List Nat) }
          ({ s1 with legacy := Function.update s1.legacy tid cleared }, [])
      | .avm2 tid =>
          let cleared := { s1.modern tid with readBuffer := ([] : List Nat), writeBuffer := ([] : List Nat) }
          ({ s1 with modern := Function.update s1.modern tid cleared }, [])
  | (none, _) => (s, [])

/-- `Sockets::connect_avm2`: build the entry with a fresh outbound channel,
insert it, make the backend call, store the new handle in the target's
handle slot, and close any displaced previous handle — in that source
order, recorded in the returned step trace. -/
def connect_avm2 (s : SocketsState) (tid : Nat) (host : String) (port : Nat) :
    SocketsState × List ConnectStep :=
  let target := s.modern tid
  let socket : Socket := { target := .avm2 tid, outbound := [] }
  let inserted := s.sockets.insert socket
  let handle := inserted.1
  let s1 := { s with sockets := inserted.2 }
  let backendStep := ConnectStep.backendCall host port target.timeout handle
  let updatedTarget := { target with handle := some handle }
  let s2 := { s1 with modern := Function.update s1.modern tid updatedTarget }
  let setStep := ConnectStep.setHandle tid handle target.handle
  match target.handle with
  | some existing =>
      ((Sockets.close s2 existing).1, [backendStep, setStep, .closeCall existing])
  | none => (s2, [backendStep, setStep])

/-- `Sockets::connect_avm1`: as `connect_avm2` but the target must pass the
`XmlSocket::cast` check (otherwise a silent no-op before any insertion),
and only the read buffer side exists. -/
def connect_avm1 (s : SocketsState) (tid : Nat) (host : String) (port : Nat) :
    SocketsState × List ConnectStep :=
  let target := s.legacy tid
  if target.isXmlSocket then
    let socket : Socket := { target := .avm1 tid, outbound := [] }
    let inserted := s.sockets.insert socket
    let handle := inserted.1
    let s1 := { s with sockets := inserted.2 }
    let backendStep := ConnectStep.backendCall host port target.timeout handle
    let updatedTarget := { target with handle := some handle }
    let s2 := { s1 with legacy := Function.update s1.legacy tid updatedTarget }
    let setStep := ConnectStep.setHandle tid handle target.handle
    match target.handle with
    | some existing =>
        ((Sockets.close s2 existing).1, [backendStep, setStep, .closeCall existing])
    | none => (s2, [backendStep, setStep])
  else (s, [])

end Sockets

/-- The framing decoder loop of the AVM1 `Data` arm, with an explicit fuel
bound on the iteration count: while a zero byte exists (first one at
position `i`, the source's `find` of a zero byte), split off the first `i`
bytes as one message, drop the delimiter byte, and rescan. Each iteration
removes at least one byte, so `buffer.length` fuel is always sufficient
(`drainLoop_congr` proves the result is fuel-independent from there up). -/
def drainLoop : Nat → List Nat → List (List Nat) × List Nat
  | 0, buffer => ([], buffer)
  | fuel + 1, buffer =>
      let i := buffer.indexOf 0
      if i < buffer.length then
        let message := buffer.take i
        let rest := buffer.drop (i + 1)
        let drained := drainLoop fuel rest
        (message :: drained.1, drained.2)
      else ([], buffer)

/-- The framing decoder: messages drained from the buffer, in order, plus
the remaining (zero-free) partial message. -/
def drainMessages (buffer : List Nat) : List (List Nat) × List Nat :=
  drainLoop buffer.length buffer

/-- `AvmString::new_utf8_bytes` is a permissive, total best-effort decode
(never raises on ill-formed bytes); at this byte-level abstraction a decoded
message is carried by its raw bytes. -/
def decodeMessage (bytes : List Nat) : List Nat := bytes

namespace Sockets

/-- Effect of the `Data` arm on an AVM2 target: append the payload to the
read buffer and dispatch a progress-style event whose bytesLoaded is this
payload's size and whose bytesTotal is always 0. -/
def dataResultAvm2 (s : SocketsState) (tid : Nat) (bytes : List Nat) :
    SocketsState × List Event :=
  let target := s.modern tid
  let bytesLoaded := bytes.length
  let extended := { target with readBuffer := target.readBuffer ++ bytes }
  ({ s with modern := Function.update s.modern tid extended },
    [.progressEvent tid bytesLoaded 0])

/-- Effect of the `Data` arm on an AVM1 target: append the payload to the
read buffer, then run the framing decoder, invoking `onData` once per
decoded message and retaining the delimiter-free remainder. -/
def dataResultAvm1 (s : SocketsState) (tid : Nat) (bytes : List Nat) :
    SocketsState × List Event :=
  let target := s.legacy tid
  let buffer := target.readBuffer ++ bytes
  let drained := drainMessages buffer
  let updated := { target with readBuffer := drained.2 }
  ({ s with legacy := Function.update s.legacy tid updated },
    drained.1.map fun m => Event.onData tid (decodeMessage m))

/-- Effect of the `Close` arm on an AVM2 target after the entry has been
removed: clear both buffers and dispatch a "close" event. -/
def closeResultAvm2 (s1 : SocketsState) (tid : Nat) : SocketsState × List Event :=
  let cleared := { s1.modern tid with readBuffer := ([] : List Nat), writeBuffer := ([] : List Nat) }
  ({ s1 with modern := Function.update s1.modern tid cleared }, [.closeEvent tid])

/-- Effect of the `Close` arm on an AVM1 target after the entry has been
removed: clear the read buffer and invoke `onClose`. -/
def closeResultAvm1 (s1 : SocketsState) (tid : Nat) : SocketsState × List Event :=
  let cleared := { s1.legacy tid with readBuffer := ([] : List Nat) }
  ({ s1 with legacy := Function.update s1.legacy tid cleared }, [.onClose tid])

/-- Dispatch of one drained `SocketAction` (one arm of the `for action in
actions` loop of `Sockets::update_sockets`): look the handle up, drop the
action silently when it is absent, otherwise mutate the referenced target's
buffers and perform the dispatches of the source's corresponding arm. -/
def processAction (s : SocketsState) (a : SocketAction) : SocketsState × List Event :=
  match a with
  | .connect h .connected =>
      match s.sockets.get h with
      | none => (s, [])
      | some sock =>
          match sock.target with
          | .avm2 tid => (s, [.connectEvent tid])
          | .avm1 tid => (s, [.onConnect tid true])
  | .connect h .failed | .connect h .timedOut =>
      match s.sockets.get h with
      | none => (s, [])
      | some sock =>
          match sock.target with
          | .avm2 tid => (s, [.ioErrorEvent tid "Error #2031: Socket Error." 2031])
          | .avm1 tid => (s, [.onConnect tid false])
  | .data h bytes =>
      match s.sockets.get h with
      | none => (s, [])
      | some sock =>
          match sock.target with
          | .avm2 tid => dataResultAvm2 s tid bytes
          | .avm1 tid => dataResultAvm1 s tid bytes
  | .close h =>
      match s.sockets.remove h with
      | (none, _) => (s, [])
      | (some sock, arena) =>
          let s1 := { s with sockets := arena }
          match sock.target with
          | .avm2 tid => closeResultAvm2 s1 tid
          | .avm1 tid => closeResultAvm1 s1 tid

/-- Process a snapshot of actions in order, threading the state and
concatenating the dispatched events. -/
def processActions (s : SocketsState) : List SocketAction → SocketsState × List Event
  | [] => (s, [])
  | a :: rest =>
      let step := processAction s a
      let next := processActions step.1 rest
      (next.1, step.2 ++ next.2)

/-- `Sockets::update_sockets`: pull every currently queued action into a
local snapshot (`while let Ok(action) = receiver.try_recv()`), leaving the
queue empty, then process the snapshot in order. -/
def update_sockets (s : SocketsState) : SocketsState × List Event :=
  let actions := s.queue
  let s1 := { s with queue := ([] : List SocketAction) }
  processActions s1 actions

end Sockets

/-- Number of close notifications (AVM2 "close" events plus AVM1 `onClose`
invocations) in a dispatch trace. -/
def closeNotifCount (evs : List Event) : Nat :=
  (evs.filter fun e =>
    match e with
    | .closeEvent _ => true
    | .onClose _ => true
    | _ => false).length

def isCloseStep : ConnectStep → Bool
  | .closeCall _ => true
  | _ => false

def isBackendStep : ConnectStep → Bool
  | .backendCall _ _ _ _ => true
  | _ => false

/-- Whenever a connect trace contains both a close of a previous handle and
the backend connect call, the close comes first. -/
def closesPrecedeBackend (tr : List ConnectStep) : Bool :=
  match tr.findIdx? isCloseStep, tr.findIdx? isBackendStep with
  | some ci, some bi => decide (ci < bi)
  | _, _ => true

/-- Concrete states used to instantiate the theorems: one registry entry,
handle `⟨0, 0⟩`, pointing at target id 0 of the respective engine. -/
def wSockA2 : Socket := { target := .avm2 0, outbound := [] }

def wSockA1 : Socket := { target := .avm1 0, outbound := [] }

def h00 : Index := ⟨0, 0⟩

def wModern : SocketsState :=
  { sockets := ((Arena.empty Socket).insert wSockA2).2, queue := [],
    modern := fun _ => default, legacy := fun _ => default }

def wLegacy : SocketsState :=
  { sockets := ((Arena.empty Socket).insert wSockA1).2, queue := [],
    modern := fun _ => default, legacy := fun _ => default }

/-- `wModern` with the target's current-handle slot holding the live handle,
as before a reconnection. -/
def wModernHeld : SocketsState :=
  { wModern with modern := fun _ => { (default : ModernTarget) with handle := some h00 } }

def wLegacyHeld : SocketsState :=
  { wLegacy with legacy := fun _ => { (default : LegacyTarget) with handle := some h00 } }

/-- An arena holding two live entries (handles `⟨0,0⟩` and `⟨1,0⟩`), used to
exhibit slot reuse after removal. -/
def wArenaTwo : Arena Socket :=
  (((Arena.empty Socket).insert wSockA2).2.insert wSockA1).2

theorem slotAt_set_self {α : Type} : ∀ (l : List (Entry α)) (i : Nat) (v : Entry α),
    i < l.length → slotAt (l.set i v) i = v
  | [], _, _, h => by simp at h
  | _ :: _, 0, _, _ => rfl
  | _ :: l, i + 1, v, h => slotAt_set_self l i v (by simpa using h)

theorem slotAt_set_ne {α : Type} : ∀ (l : List (Entry α)) (i j : Nat) (v : Entry α),
    i ≠ j → slotAt (l.set i v) j = slotAt l j
  | [], _, _, _, _ => by simp
  | _ :: _, 0, 0, _, hne => absurd rfl hne
  | _ :: _, 0, _ + 1, _, _ => rfl
  | _ :: _, _ + 1, 0, _, _ => rfl
  | _ :: l, i + 1, j + 1, v, hne => slotAt_set_ne l i j v (fun hc => hne (by omega))

theorem slotAt_append_left {α : Type} : ∀ (l : List (Entry α)) (x : Entry α) (i : Nat),
    i < l.length → slotAt (l ++ [x]) i = slotAt l i
  | [], _, _, h => by simp at h
  | _ :: _, _, 0, _ => rfl
  | _ :: l, x, i + 1, h => slotAt_append_left l x i (by simpa using h)

theorem slotAt_append_last {α : Type} : ∀ (l : List (Entry α)) (x : Entry α),
    slotAt (l ++ [x]) l.length = x
  | [], _ => rfl
  | _ :: l, x => slotAt_append_last l x

theorem slotAt_oob {α : Type} : ∀ (l : List (Entry α)) (i : Nat),
    l.length ≤ i → slotAt l i = .free
  | [], _, _ => rfl
  | _ :: _, 0, h => by simp at h
  | _ :: l, i + 1, h => slotAt_oob l i (by simpa using h)

theorem slotAt_mem {α : Type} : ∀ (l : List (Entry α)) (i : Nat),
    i < l.length → slotAt l i ∈ l
  | [], _, h => by simp at h
  | e :: _, 0, _ => List.mem_cons_self e _
  | _ :: l, i + 1, h => List.mem_cons_of_mem _ (slotAt_mem l i (by simpa using h))

namespace Arena

theorem findFreeSlot_free {α : Type} : ∀ (items : List (Entry α)) (j : Nat),
    findFreeSlot items = some j → slotAt items j = .free
  | [], _, h => by simp [findFreeSlot] at h
  | .free :: _, j, h => by
      simp only [findFreeSlot, Option.some.injEq] at h
      subst h
      rfl
  | .occupied g v :: rest, j, h => by
      rcases hrec : findFreeSlot rest with _ | j0
      · rw [findFreeSlot, hrec] at h
        exact Option.noConfusion h
      · rw [findFreeSlot, hrec, Option.some.injEq] at h
        subst h
        exact findFreeSlot_free rest j0 hrec

theorem get_some_idx_lt {α : Type} {a : Arena α} {h : Index} {v : α}
    (hget : a.get h = some v) : h.idx < a.items.length := by
  by_contra hge
  rw [Arena.get, slotAt_oob a.items h.idx (by omega)] at hget
  exact Option.noConfusion hget

theorem get_some_entry {α : Type} {a : Arena α} {h : Index} {v : α}
    (hget : a.get h = some v) : slotAt a.items h.idx = .occupied h.gen v := by
  rw [Arena.get] at hget
  rcases he : slotAt a.items h.idx with _ | ⟨g, w⟩ <;> rw [he] at hget <;> simp at hget
  obtain ⟨hg, hw⟩ := hget
  rw [hg, hw]

theorem get_of_slot_occupied {α : Type} {a : Arena α} {h : Index} {v : α}
    (he : slotAt a.items h.idx = .occupied h.gen v) : a.get h = some v := by
  rw [Arena.get, he]
  simp

theorem remove_of_get_some {α : Type} {a : Arena α} {h : Index} {v : α}
    (hget : a.get h = some v) :
    a.remove h = (some v, ⟨a.items.set h.idx .free, a.generation + 1⟩) := by
  rw [Arena.remove, get_some_entry hget]
  simp

theorem remove_of_get_none {α : Type} {a : Arena α} {h : Index}
    (hget : a.get h = none) : a.remove h = (none, a) := by
  rw [Arena.get] at hget
  rw [Arena.remove]
  rcases he : slotAt a.items h.idx with _ | ⟨g, w⟩ <;> rw [he] at hget <;> simp_all

theorem get_remove_self {α : Type} (a : Arena α) (h : Index) :
    ((a.remove h).2).get h = none := by
  rcases hget : a.get h with _ | v
  · rw [remove_of_get_none hget]
    exact hget
  · rw [remove_of_get_some hget, Arena.get]
    have hlt := get_some_idx_lt hget
    rw [slotAt_set_self _ _ _ hlt]

theorem insert_of_full {α : Type} {a : Arena α} (hfree : findFreeSlot a.items = none)
    (w : α) :
    a.insert w = (⟨a.items.length, a.generation⟩,
      ⟨a.items ++ [.occupied a.generation w], a.generation⟩) := by
  rw [Arena.insert, hfree]

theorem insert_of_free {α : Type} {a : Arena α} {j : Nat}
    (hfree : findFreeSlot a.items = some j) (w : α) :
    a.insert w = (⟨j, a.generation⟩,
      ⟨a.items.set j (.occupied a.generation w), a.generation⟩) := by
  rw [Arena.insert, hfree]

theorem get_insert_of_get_some {α : Type} {a : Arena α} {h : Index} {v : α}
    (hget : a.get h = some v) (w : α) : ((a.insert w).2).get h = some v := by
  have hlt := get_some_idx_lt hget
  have hentry := get_some_entry hget
  rcases hfree : findFreeSlot a.items with _ | j
  · rw [insert_of_full hfree]
    exact get_of_slot_occupied (by rw [show (⟨a.items ++ [.occupied a.generation w], a.generation⟩ : Arena α).items = a.items ++ [.occupied a.generation w] from rfl, slotAt_append_left _ _ _ hlt]; exact hentry)
  · have hj := findFreeSlot_free a.items j hfree
    have hne : j ≠ h.idx := by
      intro hc
      rw [hc, hentry] at hj
      exact Entry.noConfusion hj
    rw [insert_of_free hfree]
    exact get_of_slot_occupied (by rw [show (⟨a.items.set j (.occupied a.generation w), a.generation⟩ : Arena α).items = a.items.set j (.occupied a.generation w) from rfl, slotAt_set_ne _ _ _ _ hne]; exact hentry)

theorem get_none_of_slot {α : Type} {a : Arena α} {h : Index}
    (hs : ∀ v : α, slotAt a.items h.idx ≠ .occupied h.gen v) : a.get h = none := by
  rw [Arena.get]
  rcases he : slotAt a.items h.idx with _ | ⟨g, w⟩
  · rfl
  · simp only
    rw [if_neg fun hg => hs w (by rw [he, hg])]

theorem slot_of_get_none {α : Type} {a : Arena α} {h : Index}
    (hget : a.get h = none) : ∀ v : α, slotAt a.items h.idx ≠ .occupied h.gen v := by
  intro v hc
  rw [get_of_slot_occupied hc] at hget
  exact Option.noConfusion hget

theorem dead_insert {α : Type} {a : Arena α} {h : Index} (hd : Dead a h) (v : α) :
    Dead ((a.insert v).2) h := by
  obtain ⟨hnone, hgen⟩ := hd
  rcases hfree : findFreeSlot a.items with _ | j
  · rw [insert_of_full hfree]
    refine ⟨get_none_of_slot fun w hc => ?_, hgen⟩
    rw [show (⟨a.items ++ [.occupied a.generation v], a.generation⟩ : Arena α).items = a.items ++ [.occupied a.generation v] from rfl] at hc
    rcases Nat.lt_trichotomy h.idx a.items.length with hlt | heq | hgt
    · rw [slotAt_append_left _ _ _ hlt] at hc
      exact slot_of_get_none hnone w hc
    · rw [heq, slotAt_append_last] at hc
      have hcg : a.generation = h.gen := ((Entry.occupied.injEq _ _ _ _).mp hc).1
      omega
    · rw [slotAt_oob _ _ (by simp; omega)] at hc
      exact Entry.noConfusion hc
  · rw [insert_of_free hfree]
    refine ⟨get_none_of_slot fun w hc => ?_, hgen⟩
    rw [show (⟨a.items.set j (.occupied a.generation v), a.generation⟩ : Arena α).items = a.items.set j (.occupied a.generation v) from rfl] at hc
    by_cases hij : j = h.idx
    · by_cases hlt : j < a.items.length
      · rw [hij] at hlt
        rw [hij, slotAt_set_self _ _ _ hlt] at hc
        have hcg : a.generation = h.gen := ((Entry.occupied.injEq _ _ _ _).mp hc).1
        omega
      · rw [List.set_eq_of_length_le (by omega)] at hc
        rw [slotAt_oob _ _ (by omega)] at hc
        exact Entry.noConfusion hc
    · rw [slotAt_set_ne _ _ _ _ hij] at hc
      exact slot_of_get_none hnone w hc

theorem dead_remove {α : Type} {a : Arena α} {h : Index} (hd : Dead a h) (i : Index) :
    Dead ((a.remove i).2) h := by
  obtain ⟨hnone, hgen⟩ := hd
  rcases hget : a.get i with _ | v
  · rw [remove_of_get_none hget]
    exact ⟨hnone, hgen⟩
  · rw [remove_of_get_some hget]
    show Dead ⟨a.items.set i.idx .free, a.generation + 1⟩ h
    refine ⟨get_none_of_slot fun w hc => ?_, by show h.gen < a.generation + 1; omega⟩
    rw [show (⟨a.items.set i.idx Entry.free, a.generation + 1⟩ : Arena α).items = a.items.set i.idx Entry.free from rfl] at hc
    by_cases hij : i.idx = h.idx
    · by_cases hlt : i.idx < a.items.length
      · rw [← hij, slotAt_set_self _ _ _ hlt] at hc
        exact Entry.noConfusion hc
      · rw [List.set_eq_of_length_le (by omega)] at hc
        rw [slotAt_oob _ _ (by omega)] at hc
        exact Entry.noConfusion hc
    · rw [slotAt_set_ne _ _ _ _ hij] at hc
      exact slot_of_get_none hnone w hc

theorem modify_of_slot_occupied {α : Type} {a : Arena α} {i : Index} {g : Nat} {w : α}
    (he : slotAt a.items i.idx = .occupied g w) (hg : g = i.gen) (f : α → α) :
    a.modify i f = ⟨a.items.set i.idx (.occupied g (f w)), a.generation⟩ := by
  rw [Arena.modify, he]
  simp [hg]

theorem modify_of_slot_other {α : Type} {a : Arena α} {i : Index} (f : α → α)
    (hmiss : ∀ w : α, slotAt a.items i.idx ≠ .occupied i.gen w) :
    a.modify i f = a := by
  rw [Arena.modify]
  rcases he : slotAt a.items i.idx with _ | ⟨g, w⟩
  · rfl
  · simp only
    rw [if_neg fun hg => hmiss w (by rw [he, hg])]

theorem dead_modify {α : Type} {a : Arena α} {h : Index} (hd : Dead a h)
    (i : Index) (f : α → α) : Dead (a.modify i f) h := by
  obtain ⟨hnone, hgen⟩ := hd
  rcases he : slotAt a.items i.idx with _ | ⟨g, w⟩
  · rw [modify_of_slot_other f fun w hc => by rw [he] at hc; exact Entry.noConfusion hc]
    exact ⟨hnone, hgen⟩
  · by_cases hg : g = i.gen
    · rw [modify_of_slot_occupied he hg f]
      refine ⟨get_none_of_slot fun u hc => ?_, hgen⟩
      rw [show (⟨a.items.set i.idx (.occupied g (f w)), a.generation⟩ : Arena α).items = a.items.set i.idx (.occupied g (f w)) from rfl] at hc
      by_cases hij : i.idx = h.idx
      · by_cases hlt : i.idx < a.items.length
        · rw [← hij, slotAt_set_self _ _ _ hlt] at hc
          have hgh : g = h.gen := ((Entry.occupied.injEq _ _ _ _).mp hc).1
          exact slot_of_get_none hnone w (by rw [← hij, he, hgh])
        · rw [List.set_eq_of_length_le (by omega)] at hc
          rw [slotAt_oob _ _ (by omega)] at hc
          exact Entry.noConfusion hc
      · rw [slotAt_set_ne _ _ _ _ hij] at hc
        exact slot_of_get_none hnone u hc
    · rw [modify_of_slot_other f fun u hc => by
        rw [he] at hc
        exact hg (((Entry.occupied.injEq _ _ _ _).mp hc).1)]
      exact ⟨hnone, hgen⟩

theorem dead_applyOps {α : Type} {a : Arena α} {h : Index} (hd : Dead a h) :
    ∀ ops : List (Op α), Dead (a.applyOps ops) h := by
  intro ops
  induction ops generalizing a with
  | nil => exact hd
  | cons op rest ih =>
      rcases op with v | i | i
      · exact ih (dead_insert hd v)
      · exact ih (dead_remove hd i)
      · exact ih (dead_modify hd i _)

theorem dead_after_remove {α : Type} {a : Arena α} {h : Index} {v : α}
    (hwf : a.WF) (hget : a.get h = some v) : Dead ((a.remove h).2) h := by
  refine ⟨get_remove_self a h, ?_⟩
  rw [remove_of_get_some hget]
  show h.gen < a.generation + 1
  have hentry := get_some_entry hget
  have hlt := get_some_idx_lt hget
  have hmem : Entry.occupied h.gen v ∈ a.items := hentry ▸ slotAt_mem a.items h.idx hlt
  have hb := (List.all_eq_true.mp hwf) _ hmem
  simp only [decide_eq_true_eq] at hb
  omega

theorem get_same_idx_eq {α : Type} {a : Arena α} {h1 h2 : Index} {v1 v2 : α}
    (hg1 : a.get h1 = some v1) (hg2 : a.get h2 = some v2)
    (hidx : h1.idx = h2.idx) : h1 = h2 := by
  have he1 := get_some_entry hg1
  have he2 := get_some_entry hg2
  rw [hidx, he2] at he1
  cases h1
  cases h2
  simp_all

end Arena

namespace Sockets

theorem processAction_connected_avm2 {s : SocketsState} {h : Index} {sock : Socket}
    {tid : Nat} (hget : s.sockets.get h = some sock) (htgt : sock.target = .avm2 tid) :
    processAction s (.connect h .connected) = (s, [.connectEvent tid]) := by
  simp only [processAction]
  rw [hget]
  dsimp only
  rw [htgt]

theorem processAction_connected_avm1 {s : SocketsState} {h : Index} {sock : Socket}
    {tid : Nat} (hget : s.sockets.get h = some sock) (htgt : sock.target = .avm1 tid) :
    processAction s (.connect h .connected) = (s, [.onConnect tid true]) := by
  simp only [processAction]
  rw [hget]
  dsimp only
  rw [htgt]

theorem processAction_failed_avm2 {s : SocketsState} {h : Index} {sock : Socket}
    {tid : Nat} (hget : s.sockets.get h = some sock) (htgt : sock.target = .avm2 tid) :
    processAction s (.connect h .failed) =
      (s, [.ioErrorEvent tid "Error #2031: Socket Error." 2031]) := by
  simp only [processAction]
  rw [hget]
  dsimp only
  rw [htgt]

theorem processAction_failed_avm1 {s : SocketsState} {h : Index} {sock : Socket}
    {tid : Nat} (hget : s.sockets.get h = some sock) (htgt : sock.target = .avm1 tid) :
    processAction s (.connect h .failed) = (s, [.onConnect tid false]) := by
  simp only [processAction]
  rw [hget]
  dsimp only
  rw [htgt]

theorem processAction_fail_states_eq (s : SocketsState) (h : Index) :
    processAction s (.connect h .failed) = processAction s (.connect h .timedOut) := rfl

theorem processAction_data_avm2 {s : SocketsState} {h : Index} {sock : Socket}
    {tid : Nat} (bytes : List Nat)
    (hget : s.sockets.get h = some sock) (htgt : sock.target = .avm2 tid) :
    processAction s (.data h bytes) = dataResultAvm2 s tid bytes := by
  simp only [processAction]
  rw [hget]
  dsimp only
  rw [htgt]

theorem processAction_data_avm1 {s : SocketsState} {h : Index} {sock : Socket}
    {tid : Nat} (bytes : List Nat)
    (hget : s.sockets.get h = some sock) (htgt : sock.target = .avm1 tid) :
    processAction s (.data h bytes) = dataResultAvm1 s tid bytes := by
  simp only [processAction]
  rw [hget]
  dsimp only
  rw [htgt]

theorem processAction_close_avm2 {s : SocketsState} {h : Index} {sock : Socket}
    {tid : Nat} (hget : s.sockets.get h = some sock) (htgt : sock.target = .avm2 tid) :
    processAction s (.close h) =
      closeResultAvm2 { s with sockets := (s.sockets.remove h).2 } tid := by
  simp only [processAction]
  rw [Arena.remove_of_get_some hget]
  dsimp only
  rw [htgt]

theorem processAction_close_avm1 {s : SocketsState} {h : Index} {sock : Socket}
    {tid : Nat} (hget : s.sockets.get h = some sock) (htgt : sock.target = .avm1 tid) :
    processAction s (.close h) =
      closeResultAvm1 { s with sockets := (s.sockets.remove h).2 } tid := by
  simp only [processAction]
  rw [Arena.remove_of_get_some hget]
  dsimp only
  rw [htgt]

theorem processAction_absent {s : SocketsState} {a : SocketAction}
    (hget : s.sockets.get a.handleOf = none) : processAction s a = (s, []) := by
  rcases a with ⟨h, st⟩ | ⟨h, bytes⟩ | h
  · rcases st <;>
      · simp only [processAction]
        rw [show s.sockets.get h = none from hget]
  · simp only [processAction]
    rw [show s.sockets.get h = none from hget]
  · simp only [processAction]
    rw [Arena.remove_of_get_none (show s.sockets.get h = none from hget)]

end Sockets

theorem drainLoop_step {fuel : Nat} {buf : List Nat}
    (hfound : buf.indexOf 0 < buf.length) :
    drainLoop (fuel + 1) buf =
      (buf.take (buf.indexOf 0) :: (drainLoop fuel (buf.drop (buf.indexOf 0 + 1))).1,
        (drainLoop fuel (buf.drop (buf.indexOf 0 + 1))).2) := by
  simp only [drainLoop]
  rw [if_pos hfound]

theorem drainLoop_stop {fuel : Nat} {buf : List Nat}
    (hnf : ¬ buf.indexOf 0 < buf.length) : drainLoop fuel buf = ([], buf) := by
  cases fuel with
  | zero => rfl
  | succ f =>
      simp only [drainLoop]
      rw [if_neg hnf]

theorem drainLoop_congr (f1 : Nat) : ∀ (f2 : Nat) (buf : List Nat),
    buf.length ≤ f1 → buf.length ≤ f2 → drainLoop f1 buf = drainLoop f2 buf := by
  induction f1 with
  | zero =>
      intro f2 buf h1 _
      have hb : buf = [] := List.length_eq_zero.mp (by omega)
      subst hb
      rw [drainLoop_stop (by simp), drainLoop_stop (by simp)]
  | succ f ih =>
      intro f2 buf h1 h2
      by_cases hf : buf.indexOf 0 < buf.length
      · rcases f2 with _ | f2
        · omega
        · rw [drainLoop_step hf, drainLoop_step hf]
          have hd1 : (buf.drop (buf.indexOf 0 + 1)).length ≤ f := by
            simp only [List.length_drop]
            omega
          have hd2 : (buf.drop (buf.indexOf 0 + 1)).length ≤ f2 := by
            simp only [List.length_drop]
            omega
          rw [ih f2 _ hd1 hd2]
      · rw [drainLoop_stop hf, drainLoop_stop hf]

theorem drainMessages_found {buf : List Nat} (hfound : buf.indexOf 0 < buf.length) :
    drainMessages buf =
      (buf.take (buf.indexOf 0) :: (drainMessages (buf.drop (buf.indexOf 0 + 1))).1,
        (drainMessages (buf.drop (buf.indexOf 0 + 1))).2) := by
  obtain ⟨n, hn⟩ : ∃ n, buf.length = n + 1 := ⟨buf.length - 1, by omega⟩
  rw [drainMessages, hn, drainLoop_step hfound, drainMessages]
  have hd : (buf.drop (buf.indexOf 0 + 1)).length ≤ n := by
    simp only [List.length_drop]
    omega
  rw [drainLoop_congr n (buf.drop (buf.indexOf 0 + 1)).length _ hd (le_refl _)]

theorem drainMessages_stop {buf : List Nat} (hnf : ¬ buf.indexOf 0 < buf.length) :
    drainMessages buf = ([], buf) := by
  rw [drainMessages, drainLoop_stop hnf]

theorem drainLoop_bound : ∀ (fuel : Nat) (buf : List Nat),
    (drainLoop fuel buf).1.length + (drainLoop fuel buf).2.length ≤ buf.length ∧
      (drainLoop fuel buf).1.length ≤ buf.length := by
  intro fuel
  induction fuel with
  | zero =>
      intro buf
      simp [drainLoop]
  | succ f ih =>
      intro buf
      by_cases hf : buf.indexOf 0 < buf.length
      · rw [drainLoop_step hf]
        have hrec := ih (buf.drop (buf.indexOf 0 + 1))
        simp only [List.length_drop] at hrec
        simp only [List.length_cons, List.length_take]
        constructor
        · omega
        · omega
      · rw [drainLoop_stop hf]
        simp

namespace Arena

theorem get_modify_self {α : Type} {a : Arena α} {h : Index} {v : α}
    (hget : a.get h = some v) (f : α → α) : (a.modify h f).get h = some (f v) := by
  have hentry := get_some_entry hget
  have hlt := get_some_idx_lt hget
  rw [modify_of_slot_occupied hentry rfl f]
  refine get_of_slot_occupied ?_
  rw [show (⟨a.items.set h.idx (.occupied h.gen (f v)), a.generation⟩ : Arena α).items = a.items.set h.idx (.occupied h.gen (f v)) from rfl]
  rw [slotAt_set_self _ _ _ hlt]

end Arena

namespace Sockets

theorem close_of_absent {s : SocketsState} {h : Index}
    (hget : s.sockets.get h = none) : close s h = (s, []) := by
  rw [close, Arena.remove_of_get_none hget]

theorem close_events_nil (s : SocketsState) (h : Index) : (close s h).2 = [] := by
  rw [close]
  rcases hr : s.sockets.remove h with ⟨o, arena⟩
  rcases o with _ | sock
  · rfl
  · rcases sock with ⟨tgt, outb⟩
    rcases tgt with tid | tid <;> rfl

theorem close_sockets_eq (s : SocketsState) (h : Index) :
    (close s h).1.sockets = (s.sockets.remove h).2 := by
  rw [close]
  rcases hr : s.sockets.remove h with ⟨o, arena⟩
  rcases o with _ | sock
  · dsimp only
    rcases hget : s.sockets.get h with _ | v
    · rw [Arena.remove_of_get_none hget] at hr
      exact congrArg Prod.snd hr
    · rw [Arena.remove_of_get_some hget] at hr
      exact absurd (congrArg Prod.fst hr) (by simp)
  · rcases sock with ⟨tgt, outb⟩
    rcases tgt with tid | tid <;> rfl

theorem close_close (s : SocketsState) (h : Index) :
    close (close s h).1 h = ((close s h).1, []) :=
  close_of_absent (by rw [close_sockets_eq]; exact Arena.get_remove_self _ _)

end Sockets

/-- C7: Processing `Connect(h, Failed)` and `Connect(h, TimedOut)` for a
live handle `h` produce identical script-visible effects; for a Legacy
target `onConnect` is invoked with success flag false in both cases, and
for a Modern target an IO-error event with fixed code 2031 and fixed
message "Error #2031: Socket Error." is dispatched in both cases, so the
two failure causes are indistinguishable to script code. -/
theorem claim_C7_fail_causes_indistinguishable (s : SocketsState) (h : Index)
    (sock : Socket) (tid : Nat) (hget : s.sockets.get h = some sock) :
    Sockets.processAction s (.connect h .failed) =
      Sockets.processAction s (.connect h .timedOut) ∧
    (sock.target = .avm1 tid →
      (Sockets.processAction s (.connect h .failed)).2 = [.onConnect tid false] ∧
      (Sockets.processAction s (.connect h .timedOut)).2 = [.onConnect tid false]) ∧
    (sock.target = .avm2 tid →
      (Sockets.processAction s (.connect h .failed)).2 =
        [.ioErrorEvent tid "Error #2031: Socket Error." 2031] ∧
      (Sockets.processAction s (.connect h .timedOut)).2 =
        [.ioErrorEvent tid "Error #2031: Socket Error." 2031]) := by
  refine ⟨Sockets.processAction_fail_states_eq s h, fun htgt => ?_, fun htgt => ?_⟩
  · rw [← Sockets.processAction_fail_states_eq, Sockets.processAction_failed_avm1 hget htgt]
    exact ⟨rfl, rfl⟩
  · rw [← Sockets.processAction_fail_states_eq, Sockets.processAction_failed_avm2 hget htgt]
    exact ⟨rfl, rfl⟩

theorem claim_C7_witness :
    wLegacy.sockets.get h00 = some wSockA1 ∧
    (Sockets.processAction wLegacy (.connect h00 .failed)).2 = [.onConnect 0 false] ∧
    (Sockets.processAction wLegacy (.connect h00 .timedOut)).2 = [.onConnect 0 false] :=
  ⟨rfl, (claim_C7_fail_causes_indistinguishable wLegacy h00 wSockA1 0 rfl).2.1 rfl⟩

/-- C8: For every `Data` action on a live Modern-engine handle the payload
is appended to the target's read buffer and a progress-style event is
dispatched whose bytes-received field equals this single payload's length
(not cumulative) and whose total field equals zero. -/
theorem claim_C8_modern_data_progress (s : SocketsState) (h : Index) (sock : Socket)
    (tid : Nat) (bytes : List Nat)
    (hget : s.sockets.get h = some sock) (htgt : sock.target = .avm2 tid) :
    (Sockets.processAction s (.data h bytes)).2 = [.progressEvent tid bytes.length 0] ∧
    ((Sockets.processAction s (.data h bytes)).1.modern tid).readBuffer =
      (s.modern tid).readBuffer ++ bytes := by
  rw [Sockets.processAction_data_avm2 bytes hget htgt]
  refine ⟨rfl, ?_⟩
  simp [Sockets.dataResultAvm2, Function.update_same]

theorem claim_C8_witness :
    wModern.sockets.get h00 = some wSockA2 ∧
    (Sockets.processAction wModern (.data h00 [7, 8, 9])).2 = [.progressEvent 0 3 0] ∧
    ((Sockets.processAction wModern (.data h00 [7, 8, 9])).1.modern 0).readBuffer = [7, 8, 9] :=
  ⟨rfl, (claim_C8_modern_data_progress wModern h00 wSockA2 0 [7, 8, 9] rfl rfl).1,
    (claim_C8_modern_data_progress wModern h00 wSockA2 0 [7, 8, 9] rfl rfl).2⟩

/-- C9: `send(handle, bytes)` enqueues the bytes on the entry's outbound
channel when the handle is present in the registry; when absent, `send`
leaves the state entirely unchanged and signals no failure. -/
theorem claim_C9_send_enqueue_or_drop (s : SocketsState) (h : Index) (data : List Nat) :
    (∀ sock : Socket, s.sockets.get h = some sock →
      (Sockets.send s h data).sockets.get h =
        some { sock with outbound := sock.outbound ++ [data] } ∧
      (Sockets.send s h data).queue = s.queue ∧
      (Sockets.send s h data).modern = s.modern ∧
      (Sockets.send s h data).legacy = s.legacy) ∧
    (s.sockets.get h = none → Sockets.send s h data = s) := by
  constructor
  · intro sock hget
    exact ⟨Arena.get_modify_self hget _, rfl, rfl, rfl⟩
  · intro hget
    show { s with sockets := _ } = s
    rw [Arena.modify_of_slot_other _ (Arena.slot_of_get_none hget)]

theorem claim_C9_witness :
    (Sockets.send wModern h00 [4, 2]).sockets.get h00 =
      some { wSockA2 with outbound := [[4, 2]] } ∧
    Sockets.send wModern ⟨5, 0⟩ [4, 2] = wModern :=
  ⟨((claim_C9_send_enqueue_or_drop wModern h00 [4, 2]).1 wSockA2 rfl).1,
    (claim_C9_send_enqueue_or_drop wModern ⟨5, 0⟩ [4, 2]).2 rfl⟩

/-- C5: An action whose handle is absent from the registry causes zero
dispatches and zero state mutations, and the drain pass simply continues
with the remaining actions; no error is raised. -/
theorem claim_C5_absent_handle_dropped (s : SocketsState) (a : SocketAction)
    (rest : List SocketAction) (hget : s.sockets.get a.handleOf = none) :
    Sockets.processAction s a = (s, []) ∧
    Sockets.processActions s (a :: rest) = Sockets.processActions s rest := by
  have h1 := Sockets.processAction_absent hget
  refine ⟨h1, ?_⟩
  simp only [Sockets.processActions]
  rw [h1]
  simp

theorem claim_C5_witness :
    wModern.sockets.get (SocketAction.handleOf (.data ⟨5, 0⟩ [1])) = none ∧
    Sockets.processAction wModern (.data ⟨5, 0⟩ [1]) = (wModern, []) ∧
    Sockets.processActions wModern [.data ⟨5, 0⟩ [1], .connect h00 .connected] =
      Sockets.processActions wModern [.connect h00 .connected] :=
  ⟨rfl, (claim_C5_absent_handle_dropped wModern (.data ⟨5, 0⟩ [1]) [.connect h00 .connected] rfl).1,
    (claim_C5_absent_handle_dropped wModern (.data ⟨5, 0⟩ [1]) [.connect h00 .connected] rfl).2⟩

/-- C10: The framing-decoder loop terminates on every finite buffer: each
iteration removes the message plus one delimiter byte, so at most
buffer-length iterations (messages) occur, and each leading delimiter byte
yields an empty-string message. -/
theorem claim_C10_framing_bounded (buf : List Nat) (rest : List Nat) :
    (drainMessages buf).1.length ≤ buf.length ∧
    (drainMessages buf).1.length + (drainMessages buf).2.length ≤ buf.length ∧
    (buf = 0 :: rest →
      drainMessages buf = ([] :: (drainMessages rest).1, (drainMessages rest).2)) := by
  obtain ⟨hsum, hlen⟩ := drainLoop_bound buf.length buf
  refine ⟨hlen, hsum, fun hb => ?_⟩
  subst hb
  rw [drainMessages_found (by simp [List.indexOf_cons_self])]
  simp [List.indexOf_cons_self]

/-- C6: No two simultaneously live handles compare equal, and once a
handle has been removed from the registry every later
get/is_connected/remove with the old handle value returns none/false, even
if the underlying slot is later reused by further operations (reuse issues
a fresh generation tag). -/
theorem claim_C6_handle_uniqueness (a : Arena Socket) (h1 h2 hd : Index)
    (v1 v2 vd : Socket) (ops : List (Arena.Op Socket)) (q : List SocketAction)
    (m : Nat → ModernTarget) (l : Nat → LegacyTarget)
    (hwf : a.WF) (hg1 : a.get h1 = some v1) (hg2 : a.get h2 = some v2)
    (hgd : a.get hd = some vd) :
    (h1.idx = h2.idx → h1 = h2) ∧
    (Arena.applyOps ((a.remove hd).2) ops).get hd = none ∧
    ((Arena.applyOps ((a.remove hd).2) ops).remove hd).1 = none ∧
    Sockets.is_connected ⟨Arena.applyOps ((a.remove hd).2) ops, q, m, l⟩ hd = false := by
  have hdead := Arena.dead_applyOps (Arena.dead_after_remove hwf hgd) ops
  refine ⟨fun hidx => Arena.get_same_idx_eq hg1 hg2 hidx, hdead.1, ?_, ?_⟩
  · rw [Arena.remove_of_get_none hdead.1]
  · show ((Arena.applyOps ((a.remove hd).2) ops).get hd).isSome = false
    rw [hdead.1]
    rfl

theorem claim_C6_witness :
    wArenaTwo.WFb = true ∧
    wArenaTwo.get ⟨0, 0⟩ = some wSockA2 ∧
    wArenaTwo.get ⟨1, 0⟩ = some wSockA1 ∧
    (Arena.applyOps ((wArenaTwo.remove ⟨0, 0⟩).2) [.insert wSockA2]).get ⟨0, 0⟩ = none ∧
    Sockets.is_connected ⟨Arena.applyOps ((wArenaTwo.remove ⟨0, 0⟩).2) [.insert wSockA2], [], fun _ => default, fun _ => default⟩ ⟨0, 0⟩ = false :=
  ⟨rfl, rfl, rfl,
    (claim_C6_handle_uniqueness wArenaTwo ⟨0, 0⟩ ⟨1, 0⟩ ⟨0, 0⟩ wSockA2 wSockA1 wSockA2
      [.insert wSockA2] [] (fun _ => default) (fun _ => default)
      rfl rfl rfl rfl).2.1,
    (claim_C6_handle_uniqueness wArenaTwo ⟨0, 0⟩ ⟨1, 0⟩ ⟨0, 0⟩ wSockA2 wSockA1 wSockA2
      [.insert wSockA2] [] (fun _ => default) (fun _ => default)
      rfl rfl rfl rfl).2.2.2⟩

/-- C3 counterexample: with an outstanding handle in the target's handle
slot, the connect trace makes the backend connect call first and closes the
previous handle only afterwards — not before the backend call as claimed. -/
theorem claim_C3_counterexample :
    Sockets.is_connected wModernHeld h00 = true ∧
    (wModernHeld.modern 0).handle = some h00 ∧
    (Sockets.connect_avm2 wModernHeld 0 "example.com" 80).2 =
      [.backendCall "example.com" 80 0 ⟨1, 0⟩, .setHandle 0 ⟨1, 0⟩ (some h00),
        .closeCall h00] ∧
    closesPrecedeBackend (Sockets.connect_avm2 wModernHeld 0 "example.com" 80).2 = false :=
  ⟨rfl, rfl, rfl, rfl⟩

/-- C3 (amended): for either engine, a connect on a target whose current
handle slot holds an outstanding handle closes that previous handle
synchronously before the connect returns — but after the new entry is
inserted and after the backend connect call is made; by the time connect
returns the previous handle is no longer in the registry. -/
theorem claim_C3_amended (s : SocketsState) (tid : Nat) (host : String) (port : Nat)
    (oldM oldL : Index) (sockM sockL : Socket) :
    ((s.modern tid).handle = some oldM → s.sockets.get oldM = some sockM →
      (Sockets.connect_avm2 s tid host port).2 =
        [.backendCall host port (s.modern tid).timeout (s.sockets.insert { target := .avm2 tid, outbound := [] }).1,
          .setHandle tid (s.sockets.insert { target := .avm2 tid, outbound := [] }).1 (some oldM),
          .closeCall oldM] ∧
      (Sockets.connect_avm2 s tid host port).1.sockets.get oldM = none) ∧
    ((s.legacy tid).isXmlSocket = true → (s.legacy tid).handle = some oldL →
      s.sockets.get oldL = some sockL →
      (Sockets.connect_avm1 s tid host port).2 =
        [.backendCall host port (s.legacy tid).timeout (s.sockets.insert { target := .avm1 tid, outbound := [] }).1,
          .setHandle tid (s.sockets.insert { target := .avm1 tid, outbound := [] }).1 (some oldL),
          .closeCall oldL] ∧
      (Sockets.connect_avm1 s tid host port).1.sockets.get oldL = none) := by
  constructor
  · intro hold hgetOld
    have hconn : Sockets.connect_avm2 s tid host port =
        ((Sockets.close { s with sockets := (s.sockets.insert { target := .avm2 tid, outbound := [] }).2, modern := Function.update s.modern tid { s.modern tid with handle := some (s.sockets.insert { target := .avm2 tid, outbound := [] }).1 } } oldM).1,
          [.backendCall host port (s.modern tid).timeout (s.sockets.insert { target := .avm2 tid, outbound := [] }).1,
            .setHandle tid (s.sockets.insert { target := .avm2 tid, outbound := [] }).1 (some oldM),
            .closeCall oldM]) := by
      simp only [Sockets.connect_avm2]
      rw [hold]
    refine ⟨by rw [hconn], ?_⟩
    rw [hconn]
    show (Sockets.close _ oldM).1.sockets.get oldM = none
    rw [Sockets.close_sockets_eq]
    exact Arena.get_remove_self _ _
  · intro hxml hold hgetOld
    have hconn : Sockets.connect_avm1 s tid host port =
        ((Sockets.close { s with sockets := (s.sockets.insert { target := .avm1 tid, outbound := [] }).2, legacy := Function.update s.legacy tid { s.legacy tid with handle := some (s.sockets.insert { target := .avm1 tid, outbound := [] }).1 } } oldL).1,
          [.backendCall host port (s.legacy tid).timeout (s.sockets.insert { target := .avm1 tid, outbound := [] }).1,
            .setHandle tid (s.sockets.insert { target := .avm1 tid, outbound := [] }).1 (some oldL),
            .closeCall oldL]) := by
      simp only [Sockets.connect_avm1]
      rw [hxml, hold]
      simp
    refine ⟨by rw [hconn], ?_⟩
    rw [hconn]
    show (Sockets.close _ oldL).1.sockets.get oldL = none
    rw [Sockets.close_sockets_eq]
    exact Arena.get_remove_self _ _

theorem claim_C3_witness :
    (wModernHeld.modern 0).handle = some h00 ∧
    wModernHeld.sockets.get h00 = some wSockA2 ∧
    (Sockets.connect_avm2 wModernHeld 0 "example.com" 80).2 =
      [.backendCall "example.com" 80 0 ⟨1, 0⟩, .setHandle 0 ⟨1, 0⟩ (some h00),
        .closeCall h00] ∧
    (Sockets.connect_avm2 wModernHeld 0 "example.com" 80).1.sockets.get h00 = none ∧
    (Sockets.connect_avm1 wLegacyHeld 0 "example.com" 80).2 =
      [.backendCall "example.com" 80 0 ⟨1, 0⟩, .setHandle 0 ⟨1, 0⟩ (some h00),
        .closeCall h00] ∧
    (Sockets.connect_avm1 wLegacyHeld 0 "example.com" 80).1.sockets.get h00 = none :=
  ⟨rfl, rfl,
    ((claim_C3_amended wModernHeld 0 "example.com" 80 h00 h00 wSockA2 wSockA2).1 rfl rfl).1,
    ((claim_C3_amended wModernHeld 0 "example.com" 80 h00 h00 wSockA2 wSockA2).1 rfl rfl).2,
    ((claim_C3_amended wLegacyHeld 0 "example.com" 80 h00 h00 wSockA1 wSockA1).2 rfl rfl rfl).1,
    ((claim_C3_amended wLegacyHeld 0 "example.com" 80 h00 h00 wSockA1 wSockA1).2 rfl rfl rfl).2⟩

/-- C4 counterexample: with a live handle in the registry, calling close
twice yields zero close notifications, not exactly one — the script-driven
close method dispatches no notification at all, and the second close is a
silent no-op. -/
theorem claim_C4_counterexample :
    Sockets.is_connected wModern h00 = true ∧
    closeNotifCount ((Sockets.close wModern h00).2 ++
      (Sockets.close (Sockets.close wModern h00).1 h00).2) = 0 ∧
    closeNotifCount ((Sockets.close wModern h00).2 ++
      (Sockets.close (Sockets.close wModern h00).1 h00).2) ≠ 1 := by
  refine ⟨rfl, ?_, ?_⟩ <;> rw [Sockets.close_events_nil, Sockets.close_events_nil] <;> decide

/-- C4 (amended): close is idempotent and never errors — the second
close/Close for the same handle is a silent no-op; the script-driven close
itself dispatches no close notification (so close-twice and
close-then-Close yield zero close notifications), while exactly one close
notification arises from processing a Close action on a still-live handle,
with any further Close dropped. -/
theorem claim_C4_close_idempotent (s : SocketsState) (h : Index) (sock : Socket)
    (hget : s.sockets.get h = some sock) :
    (Sockets.close s h).2 = [] ∧
    Sockets.close (Sockets.close s h).1 h = ((Sockets.close s h).1, []) ∧
    Sockets.processAction (Sockets.close s h).1 (.close h) = ((Sockets.close s h).1, []) ∧
    closeNotifCount (Sockets.processActions s [.close h, .close h]).2 = 1 := by
  refine ⟨Sockets.close_events_nil s h, Sockets.close_close s h, ?_, ?_⟩
  · refine Sockets.processAction_absent ?_
    show (Sockets.close s h).1.sockets.get h = none
    rw [Sockets.close_sockets_eq]
    exact Arena.get_remove_self _ _
  · simp only [Sockets.processActions]
    rcases htgt : sock.target with tid | tid
    · rw [Sockets.processAction_close_avm2 hget htgt]
      have habs : (Sockets.closeResultAvm2 { s with sockets := (s.sockets.remove h).2 } tid).1.sockets.get (SocketAction.handleOf (.close h)) = none :=
        Arena.get_remove_self _ _
      rw [Sockets.processAction_absent habs]
      simp [Sockets.closeResultAvm2, closeNotifCount]
    · rw [Sockets.processAction_close_avm1 hget htgt]
      have habs : (Sockets.closeResultAvm1 { s with sockets := (s.sockets.remove h).2 } tid).1.sockets.get (SocketAction.handleOf (.close h)) = none :=
        Arena.get_remove_self _ _
      rw [Sockets.processAction_absent habs]
      simp [Sockets.closeResultAvm1, closeNotifCount]

theorem claim_C4_witness :
    wModern.sockets.get h00 = some wSockA2 ∧
    (Sockets.close wModern h00).2 = [] ∧
    closeNotifCount (Sockets.processActions wModern [.close h00, .close h00]).2 = 1 :=
  ⟨rfl, (claim_C4_close_idempotent wModern h00 wSockA2 rfl).1,
    (claim_C4_close_idempotent wModern h00 wSockA2 rfl).2.2.2⟩

/-- C2: A drain pass first snapshots the queued actions and only then
processes the snapshot in order, never touching the registry while the
queue is emptied; for a single handle the queued sequence
[Connect(Connected), Data(b1), Data(b2), Close] is dispatched in exactly
that order within one drain pass. -/
theorem claim_C2_snapshot_and_order (s : SocketsState) (h : Index) (sock : Socket)
    (tid : Nat) (b1 b2 : List Nat)
    (hget : s.sockets.get h = some sock) (htgt : sock.target = .avm2 tid)
    (hq : s.queue = [.connect h .connected, .data h b1, .data h b2, .close h]) :
    (∀ s0 : SocketsState, Sockets.update_sockets s0 =
      Sockets.processActions { s0 with queue := [] } s0.queue) ∧
    (Sockets.update_sockets s).2 =
      [.connectEvent tid, .progressEvent tid b1.length 0,
        .progressEvent tid b2.length 0, .closeEvent tid] := by
  refine ⟨fun s0 => rfl, ?_⟩
  have hgq : ({ s with queue := ([] : List SocketAction) } : SocketsState).sockets.get h = some sock := hget
  show (Sockets.processActions { s with queue := ([] : List SocketAction) } s.queue).2 = _
  rw [hq]
  simp only [Sockets.processActions]
  rw [Sockets.processAction_connected_avm2 hgq htgt]
  dsimp only
  rw [Sockets.processAction_data_avm2 b1 hgq htgt]
  have hg3 : (Sockets.dataResultAvm2 { s with queue := ([] : List SocketAction) } tid b1).1.sockets.get h = some sock := hget
  rw [Sockets.processAction_data_avm2 b2 hg3 htgt]
  have hg4 : (Sockets.dataResultAvm2 (Sockets.dataResultAvm2 { s with queue := ([] : List SocketAction) } tid b1).1 tid b2).1.sockets.get h = some sock := hget
  rw [Sockets.processAction_close_avm2 hg4 htgt]
  simp [Sockets.dataResultAvm2, Sockets.closeResultAvm2]

theorem claim_C2_witness :
    wModern.sockets.get h00 = some wSockA2 ∧
    (Sockets.update_sockets { wModern with queue := [.connect h00 .connected, .data h00 [1, 2], .data h00 [3], .close h00] }).2 =
      [.connectEvent 0, .progressEvent 0 2 0, .progressEvent 0 1 0, .closeEvent 0] :=
  ⟨rfl, (claim_C2_snapshot_and_order
    { wModern with queue := [.connect h00 .connected, .data h00 [1, 2], .data h00 [3], .close h00] }
    h00 wSockA2 0 [1, 2] [3] rfl rfl rfl).2⟩

theorem dataResultAvm1_buffer (s : SocketsState) (tid : Nat) (bytes : List Nat) :
    ((Sockets.dataResultAvm1 s tid bytes).1.legacy tid).readBuffer =
      (drainMessages ((s.legacy tid).readBuffer ++ bytes)).2 := by
  simp [Sockets.dataResultAvm1, Function.update_same]

/-- C1: For a Legacy-target Data action the framing decoder repeatedly
scans the buffer from the start for a zero byte at position i, emits the
bytes before it as one permissively decoded message via onData, removes
them plus the delimiter, and repeats; appending "abc\0def\0gh" to an
empty buffer yields exactly the messages "abc" then "def" in order leaving
"gh" buffered, and a subsequent Data of "i\0" yields exactly "ghi" and
leaves the buffer empty. -/
theorem claim_C1_legacy_framing (s : SocketsState) (h : Index) (sock : Socket)
    (tid : Nat) (hget : s.sockets.get h = some sock) (htgt : sock.target = .avm1 tid)
    (hbuf : (s.legacy tid).readBuffer = []) :
    (∀ buf : List Nat, buf.indexOf 0 < buf.length →
      drainMessages buf =
        (buf.take (buf.indexOf 0) :: (drainMessages (buf.drop (buf.indexOf 0 + 1))).1,
          (drainMessages (buf.drop (buf.indexOf 0 + 1))).2)) ∧
    (Sockets.processAction s (.data h [97, 98, 99, 0, 100, 101, 102, 0, 103, 104])).2 =
      [.onData tid [97, 98, 99], .onData tid [100, 101, 102]] ∧
    ((Sockets.processAction s (.data h [97, 98, 99, 0, 100, 101, 102, 0, 103, 104])).1.legacy tid).readBuffer =
      [103, 104] ∧
    (Sockets.processAction (Sockets.processAction s (.data h [97, 98, 99, 0, 100, 101, 102, 0, 103, 104])).1 (.data h [105, 0])).2 =
      [.onData tid [103, 104, 105]] ∧
    ((Sockets.processAction (Sockets.processAction s (.data h [97, 98, 99, 0, 100, 101, 102, 0, 103, 104])).1 (.data h [105, 0])).1.legacy tid).readBuffer =
      [] := by
  have hpa1 := Sockets.processAction_data_avm1
    [97, 98, 99, 0, 100, 101, 102, 0, 103, 104] hget htgt
  have hget1 : (Sockets.dataResultAvm1 s tid [97, 98, 99, 0, 100, 101, 102, 0, 103, 104]).1.sockets.get h = some sock := hget
  have hpa2 := Sockets.processAction_data_avm1 [105, 0] hget1 htgt
  have hb1 : ((Sockets.dataResultAvm1 s tid [97, 98, 99, 0, 100, 101, 102, 0, 103, 104]).1.legacy tid).readBuffer = [103, 104] := by
    rw [dataResultAvm1_buffer, hbuf]
    rfl
  refine ⟨fun buf hf => drainMessages_found hf, ?_, ?_, ?_, ?_⟩
  · rw [hpa1]
    show ((drainMessages ((s.legacy tid).readBuffer ++ _)).1.map _) = _
    rw [hbuf]
    rfl
  · rw [hpa1, hb1]
  · rw [hpa1, hpa2]
    show ((drainMessages (((Sockets.dataResultAvm1 s tid _).1.legacy tid).readBuffer ++ _)).1.map _) = _
    rw [hb1]
    rfl
  · rw [hpa1, hpa2, dataResultAvm1_buffer, hb1]
    rfl

theorem claim_C1_witness :
    wLegacy.sockets.get h00 = some wSockA1 ∧
    (Sockets.processAction wLegacy (.data h00 [97, 98, 99, 0, 100, 101, 102, 0, 103, 104])).2 =
      [.onData 0 [97, 98, 99], .onData 0 [100, 101, 102]] ∧
    (Sockets.processAction (Sockets.processAction wLegacy (.data h00 [97, 98, 99, 0, 100, 101, 102, 0, 103, 104])).1 (.data h00 [105, 0])).2 =
      [.onData 0 [103, 104, 105]] :=
  ⟨rfl, (claim_C1_legacy_framing wLegacy h00 wSockA1 0 rfl rfl rfl).2.1,
    (claim_C1_legacy_framing wLegacy h00 wSockA1 0 rfl rfl rfl).2.2.2.1⟩

theorem claim_C10_witness :
    (drainMessages [0, 5]).1.length ≤ 2 ∧
    drainMessages [0, 5] = ([] :: (drainMessages [5]).1, (drainMessages [5]).2) :=
  ⟨(claim_C10_framing_bounded [0, 5] [5]).1,
    (claim_C10_framing_bounded [0, 5] [5]).2.2 rfl⟩

end SocketCore
